import Mathlib

/-!
# Verification of the aioredis connection engine specification

The repository's `src/` tree holds only the tests and examples of the
aioredis fork; the connection engine itself (`aioredis/connection.py`,
the RESP parser, and the cluster key-slot helper) is not included.
The definitions below are therefore modelled from the specification
(`spec.md`), anchored on the observable behaviour asserted by the tests
under `src/tests/`.  Byte strings are modelled as `List Nat` (each entry
a byte value), machine words as `Nat` with explicit `% 2^16` reductions.
-/

/-- Byte strings (Python `bytes`) as lists of byte values. -/
abbrev Bytes := List Nat

/-- ASCII bytes of a Lean string (the model's stand-in for UTF-8
encoding of text arguments). -/
def strBytes (s : String) : Bytes := s.data.map Char.toNat

/-! ## Key slot (cluster hashing)

Modelled from the spec: "Key slot algorithm: if the key contains `{...}`
with a non-empty substring between the first `{` and the following `}`,
hash only that substring; else hash the whole key.
Hash = CRC16/XMODEM mod 16384."  The CRC16/XMODEM parameters are
polynomial 0x1021, initial value 0, no reflection, no final xor. -/

/-- Modelled from the spec: one shift-and-conditionally-xor round of the
CRC16/XMODEM computation (polynomial 0x1021), on a 16-bit value kept as
a `Nat` reduced modulo 2^16. -/
def crc16Round (c : Nat) : Nat :=
  if c &&& 32768 ≠ 0 then ((c <<< 1) ^^^ 4129) % 65536 else (c <<< 1) % 65536

/-- Modelled from the spec: fold one byte into the CRC16/XMODEM state
(byte xored into the high 8 bits, then 8 rounds). -/
def crc16Byte (crc b : Nat) : Nat :=
  crc16Round^[8] ((crc ^^^ ((b % 256) <<< 8)) % 65536)

/-- Modelled from the spec: CRC16/XMODEM of a byte string, initial value 0. -/
def crc16 (data : Bytes) : Nat := data.foldl crc16Byte 0

/-- Byte value of the opening brace. -/
def obrace : Nat := 123

/-- Byte value of the closing brace. -/
def cbrace : Nat := 125

/-- The part of the list strictly after the first occurrence of `b`,
or `none` when `b` does not occur. -/
def afterFirst (b : Nat) : Bytes → Option Bytes
  | [] => none
  | c :: cs => if c = b then some cs else afterFirst b cs

/-- The part of the list strictly before the first occurrence of `b`,
or `none` when `b` does not occur. -/
def upTo (b : Nat) : Bytes → Option Bytes
  | [] => none
  | c :: cs => if c = b then some [] else (upTo b cs).map (c :: ·)

/-- Modelled from the spec: the portion of a key that gets hashed.  If
the key contains a `{...}` group — a non-empty substring between the
first `{` and the following `}` — only that substring is hashed,
otherwise the whole key. -/
def hashtagOf (k : Bytes) : Bytes :=
  match afterFirst obrace k with
  | none => k
  | some rest =>
    match upTo cbrace rest with
    | none => k
    | some tag => if tag = [] then k else tag

/-- Modelled from the spec: the cluster slot of a key,
CRC16/XMODEM of the hashed portion, mod 16384. -/
def keySlot (k : Bytes) : Nat := crc16 (hashtagOf k) % 16384


/-! ## RESP values and error taxonomy

Modelled from the spec: RESP value = tagged variant over simple string,
error, integer (signed), bulk string (nullable), array (nullable); the
error taxonomy of spec section 7. -/

/-- Modelled from the spec: a RESP protocol value. -/
inductive RESP
  | simple (s : Bytes)
  | err (s : Bytes)
  | int (n : Int)
  | bulk (b : Option Bytes)
  | array (a : Option (List RESP))

/-- Modelled from the spec: the error taxonomy surfaced by the
connection layer (spec section 7). -/
inductive RError
  | connectionClosed
  | protocolError
  | replyError (msg : Bytes)
  | redisError (msg : String)
  | typeError
  | valueError
deriving DecidableEq

/-- Result of a public connection operation: a reply, a raised error, or
plain completion (for `close`, which returns nothing). -/
inductive Outcome
  | ok (r : RESP)
  | fail (e : RError)
  | finished

/-- Dynamic (duck-typed) Python argument values as the spec's design
notes describe them: text, bytes, numbers (int or float) are encodable
command arguments; `None` and aggregates such as tuples are not.  The
float constructor carries no payload: no claim inspects a float's
stringification. -/
inductive PyObj
  | pstr (s : String)
  | pbytes (b : Bytes)
  | pint (n : Int)
  | pfloat
  | pnone
  | ptuple
deriving DecidableEq

/-- Decode a byte string back to text (ASCII range), for case-folding
command names received as `bytes`. -/
def bytesToStr (b : Bytes) : String := String.mk (b.map Char.ofNat)

/-- Upper-case a string character by character (ASCII case folding). -/
def upperStr (s : String) : String := String.mk (s.data.map Char.toUpper)

/-- Modelled from the spec: the command name extracted from a text or
byte-string argument, upper-cased for the case-insensitive matching the
spec requires; `none` when the value is not text/bytes (e.g. `None`). -/
def cmdName? : PyObj → Option String
  | .pstr s => some (upperStr s)
  | .pbytes b => some (upperStr (bytesToStr b))
  | _ => none

/-- Modelled from the spec: encoding of one command argument to bytes.
Text is encoded, bytes pass through, numbers are stringified; anything
else (None, tuples, ...) is rejected with `none` (a type error). -/
def argBytes? : PyObj → Option Bytes
  | .pstr s => some (strBytes s)
  | .pbytes b => some b
  | .pint n => some (strBytes (toString n))
  | .pfloat => some (strBytes "0.0")
  | _ => none

/-- Encode a full argument vector; `none` as soon as one argument is
invalid. -/
def argsBytes? (args : List PyObj) : Option (List Bytes) :=
  args.mapM argBytes?

/-! ## Connection state

Modelled from the spec: `Connection State = { address, db, encoding,
password, closed, in_pubsub, pubsub_channels, pubsub_patterns,
waiters }`.  The connection-independent settings (address, encoding,
password) play no role in any claim and are omitted; channel maps are
modelled by their key lists (subscription names) and the waiter FIFO by
a list of waiter identifiers. -/

structure ConnState where
  closed : Bool
  db : Nat
  in_pubsub : Nat
  pubsub_channels : List Bytes
  pubsub_patterns : List Bytes
  waiters : List Nat
deriving DecidableEq

/-- A freshly connected, open connection on database 0. -/
def initConn : ConnState :=
  { closed := false, db := 0, in_pubsub := 0,
    pubsub_channels := [], pubsub_patterns := [], waiters := [] }

/-- Modelled from the spec: the invariant
`in_pubsub == |pubsub_channels| + |pubsub_patterns|`. -/
def pubsubInvariant (st : ConnState) : Prop :=
  st.in_pubsub = st.pubsub_channels.length + st.pubsub_patterns.length

instance (st : ConnState) : Decidable (pubsubInvariant st) := by
  unfold pubsubInvariant; infer_instance

/-! ## Pub/sub bookkeeping -/

/-- The four pub/sub-family commands accepted by `execute_pubsub`. -/
inductive PSKind
  | sub
  | unsub
  | psub
  | punsub
deriving DecidableEq

/-- Modelled from the spec: classification of an (upper-cased) command
name as one of the pub/sub-family commands. -/
def psKind? (name : String) : Option PSKind :=
  if name = "SUBSCRIBE" then some .sub
  else if name = "UNSUBSCRIBE" then some .unsub
  else if name = "PSUBSCRIBE" then some .psub
  else if name = "PUNSUBSCRIBE" then some .punsub
  else none

/-- Modelled from the spec: while `in_pubsub > 0` only pub/sub-family
commands plus `PING` and `QUIT` may be enqueued. -/
def allowedInPubsub : List String :=
  ["SUBSCRIBE", "UNSUBSCRIBE", "PSUBSCRIBE", "PUNSUBSCRIBE", "PING", "QUIT"]

/-- The lower-case byte-string kind tag used in pub/sub acknowledgment
replies (`b"subscribe"` and friends). -/
def psKindBytes : PSKind → Bytes
  | .sub => strBytes "subscribe"
  | .unsub => strBytes "unsubscribe"
  | .psub => strBytes "psubscribe"
  | .punsub => strBytes "punsubscribe"

/-- One `[kind, name, count]` sub-array of a pub/sub acknowledgment
reply. -/
def entryOf (kind : PSKind) (name : Bytes) (count : Nat) : RESP :=
  .array (some [.bulk (some (psKindBytes kind)), .bulk (some name), .int count])

/-- Modelled from the spec: the effect of touching one channel name.
Subscribe creates the channel entry if absent; unsubscribe removes it if
present; the pattern variants act on `pubsub_patterns`.  `in_pubsub` is
set to the resulting total subscription count, which is also the count
reported in the acknowledgment entry. -/
def pubsubStep (kind : PSKind) (st : ConnState) (name : Bytes) : ConnState × RESP :=
  match kind with
  | .sub =>
    let chans := if name ∈ st.pubsub_channels then st.pubsub_channels
                 else st.pubsub_channels ++ [name]
    let total := chans.length + st.pubsub_patterns.length
    ({ st with pubsub_channels := chans, in_pubsub := total },
     entryOf .sub name total)
  | .unsub =>
    let chans := st.pubsub_channels.erase name
    let total := chans.length + st.pubsub_patterns.length
    ({ st with pubsub_channels := chans, in_pubsub := total },
     entryOf .unsub name total)
  | .psub =>
    let pats := if name ∈ st.pubsub_patterns then st.pubsub_patterns
                else st.pubsub_patterns ++ [name]
    let total := st.pubsub_channels.length + pats.length
    ({ st with pubsub_patterns := pats, in_pubsub := total },
     entryOf .psub name total)
  | .punsub =>
    let pats := st.pubsub_patterns.erase name
    let total := st.pubsub_channels.length + pats.length
    ({ st with pubsub_patterns := pats, in_pubsub := total },
     entryOf .punsub name total)

/-- Touch each channel name in order, collecting one acknowledgment
entry per name. -/
def runPubsub (kind : PSKind) (st : ConnState) : List Bytes → ConnState × List RESP
  | [] => (st, [])
  | n :: ns =>
    let p1 := pubsubStep kind st n
    let p2 := runPubsub kind p1.1 ns
    (p2.1, p1.2 :: p2.2)

/-- The shared post-validation core of `execute_pubsub` (also reached by
`execute` for pub/sub-family commands): returns the list of
acknowledgment entries as the reply. -/
def pubsubExec (st : ConnState) (kind : PSKind) (names : List Bytes) :
    ConnState × Outcome :=
  let p := runPubsub kind st names
  (p.1, .ok (.array (some p.2)))

/-! ## Public connection operations

Modelled from the spec (section 4.2).  Each operation is the completed
round trip of one call: validation happens synchronously (spec: "raised
synchronously before any I/O"), then the server's reply — abstracted as
a function `serve` from command name and encoded arguments to a RESP
value — resolves the call.  The validation order follows the spec's
listing: closed-connection check, command-name check, argument encoding,
then the pub/sub-mode restriction. -/

/-- Modelled from the spec: `execute_pubsub(cmd, *channels)`.  Only
accepts the four pub/sub-family commands; rejects calls on a closed
connection with `ConnectionClosedError`; rejects non-encodable channel
arguments with a type error. -/
def execute_pubsub (st : ConnState) (cmd : PyObj) (channels : List PyObj) :
    ConnState × Outcome :=
  if st.closed then (st, .fail .connectionClosed)
  else
    match cmdName? cmd with
    | none => (st, .fail .typeError)
    | some name =>
      match psKind? name with
      | none => (st, .fail .valueError)
      | some kind =>
        match argsBytes? channels with
        | none => (st, .fail .typeError)
        | some names => pubsubExec st kind names

/-- Modelled from the spec: `execute(cmd_name, *args)`.  Closed
connection → `ConnectionClosedError`; `None`/non-text command name or a
non-encodable argument → type error (before any I/O); pub/sub-family
commands take the `execute_pubsub` path (the behaviour the tests
exercise with `conn.execute('subscribe', ...)`); while `in_pubsub > 0`
any command outside the allowed set → `RedisError("Connection in
SUBSCRIBE mode")`; a successful `QUIT` closes the connection after the
server's reply; any other command resolves with the server's reply. -/
def execute (serve : String → List Bytes → RESP) (st : ConnState)
    (cmd : PyObj) (args : List PyObj) : ConnState × Outcome :=
  if st.closed then (st, .fail .connectionClosed)
  else
    match cmdName? cmd with
    | none => (st, .fail .typeError)
    | some name =>
      match argsBytes? args with
      | none => (st, .fail .typeError)
      | some bargs =>
        match psKind? name with
        | some kind => pubsubExec st kind bargs
        | none =>
          if st.in_pubsub ≠ 0 ∧ name ∉ allowedInPubsub then
            (st, .fail (.redisError "Connection in SUBSCRIBE mode"))
          else if name = "QUIT" then
            ({ st with closed := true, waiters := [] }, .ok (serve name bargs))
          else
            (st, .ok (serve name bargs))

/-- Modelled from the spec: `close()` — closes the write side and fails
any surviving waiters with `ConnectionClosedError`; returns the list of
failed waiters. -/
def close (st : ConnState) : ConnState × List (Nat × RError) :=
  ({ st with closed := true, waiters := [] },
   st.waiters.map (fun w => (w, .connectionClosed)))

/-- Modelled from the spec: `select(db) → bool`.  `db` must be an
integer (else type error), non-negative (else value error); the server —
configured with `numDbs` databases — rejects an out-of-range index with
a `ReplyError`; on success the reply is `True` and the connection's `db`
attribute becomes `db`. -/
def select (numDbs : Nat) (st : ConnState) (db : PyObj) :
    ConnState × Except RError Bool :=
  if st.closed then (st, .error .connectionClosed)
  else
    match db with
    | .pint n =>
      if n < 0 then (st, .error .valueError)
      else if numDbs ≤ n.toNat then
        (st, .error (.replyError (strBytes "ERR DB index is out of range")))
      else ({ st with db := n.toNat }, .ok true)
    | _ => (st, .error .typeError)

/-- Modelled from the spec: `create_connection(address, {db, ...})`
validates the `db` argument exactly as `select` does (type and value
checks before any I/O, server rejection of out-of-range indices) and
yields a fresh connection on that database. -/
def create_connection (numDbs : Nat) (db : PyObj) : Except RError ConnState :=
  match select numDbs initConn db with
  | (st, .ok _) => .ok st
  | (_, .error e) => .error e

/-! ## Operation sequences (for the state invariant) -/

/-- One completed public operation on a connection: the four
`execute_pubsub` forms, a general `execute`, or `close`. -/
inductive Op
  | subscribe (channels : List PyObj)
  | unsubscribe (channels : List PyObj)
  | psubscribe (channels : List PyObj)
  | punsubscribe (channels : List PyObj)
  | run (cmd : PyObj) (args : List PyObj)
  | shutdown

/-- The state reached after one completed operation. -/
def applyOp (serve : String → List Bytes → RESP) (st : ConnState) : Op → ConnState
  | .subscribe chs => (execute_pubsub st (.pstr "subscribe") chs).1
  | .unsubscribe chs => (execute_pubsub st (.pstr "unsubscribe") chs).1
  | .psubscribe chs => (execute_pubsub st (.pstr "psubscribe") chs).1
  | .punsubscribe chs => (execute_pubsub st (.pstr "punsubscribe") chs).1
  | .run cmd args => (execute serve st cmd args).1
  | .shutdown => (close st).1

/-- The state reached from a fresh connection after a sequence of
completed operations. -/
def runOps (serve : String → List Bytes → RESP) (ops : List Op) : ConnState :=
  ops.foldl (applyOp serve) initConn

/-! ## Reader task

Modelled from the spec (section 4.2, "Reader task"): for each parsed
reply, if `in_pubsub == 0` or the reply is not a pub/sub message
envelope, the head waiter of the FIFO is popped and resolved with that
reply; otherwise messages are routed to their Channel and subscription
acknowledgments both resolve the outstanding waiter and update the
pub/sub state. -/

/-- What the reader did with one parsed reply. -/
inductive RdEvent
  | resolved (w : Nat) (r : RESP)
  | routed (name : Bytes) (payload : RESP)
  | dropped

/-- Modelled from the spec: a reply is a pub/sub message envelope when
it is an array whose first element is one of the six pub/sub kind
tags. -/
def isPubsubEnvelope (r : RESP) : Bool :=
  match r with
  | .array (some (.bulk (some kind) :: _)) =>
    decide (kind ∈ [strBytes "subscribe", strBytes "unsubscribe",
                    strBytes "psubscribe", strBytes "punsubscribe",
                    strBytes "message", strBytes "pmessage"])
  | _ => false

/-- Modelled from the spec: apply a subscription acknowledgment
`[kind, name, count]` to the pub/sub state (`in_pubsub` takes the
server-reported count; the channel maps gain or lose `name`). -/
def applyAck (st : ConnState) (r : RESP) : ConnState :=
  match r with
  | .array (some [.bulk (some kind), .bulk (some name), .int count]) =>
    if kind = strBytes "subscribe" then
      { st with
        pubsub_channels := if name ∈ st.pubsub_channels then st.pubsub_channels
                           else st.pubsub_channels ++ [name],
        in_pubsub := count.toNat }
    else if kind = strBytes "unsubscribe" then
      { st with pubsub_channels := st.pubsub_channels.erase name,
                in_pubsub := count.toNat }
    else if kind = strBytes "psubscribe" then
      { st with
        pubsub_patterns := if name ∈ st.pubsub_patterns then st.pubsub_patterns
                           else st.pubsub_patterns ++ [name],
        in_pubsub := count.toNat }
    else if kind = strBytes "punsubscribe" then
      { st with pubsub_patterns := st.pubsub_patterns.erase name,
                in_pubsub := count.toNat }
    else st
  | _ => st

/-- Modelled from the spec: the reader's treatment of one parsed reply. -/
def readerStep (st : ConnState) (r : RESP) : ConnState × RdEvent :=
  if st.in_pubsub = 0 ∨ ¬ isPubsubEnvelope r then
    match st.waiters with
    | [] => (st, .dropped)
    | w :: ws => ({ st with waiters := ws }, .resolved w r)
  else
    match r with
    | .array (some [.bulk (some kind), .bulk (some chan), payload]) =>
      if kind = strBytes "message" then (st, .routed chan payload)
      else
        let st1 := applyAck st r
        match st1.waiters with
        | [] => (st1, .dropped)
        | w :: ws => ({ st1 with waiters := ws }, .resolved w r)
    | .array (some [.bulk (some _), .bulk (some pat), .bulk (some chan), payload]) =>
      (st, .routed pat (.array (some [.bulk (some chan), payload])))
    | _ => (st, .dropped)

/-- The reader task consuming a list of parsed replies in order. -/
def readerLoop : ConnState → List RESP → ConnState × List RdEvent
  | st, [] => (st, [])
  | st, r :: rs =>
    let p1 := readerStep st r
    let p2 := readerLoop p1.1 rs
    (p2.1, p1.2 :: p2.2)

/-- Modelled from the spec: a successful `execute` call appends its
reply waiter at the tail of the FIFO. -/
def enqueueWaiter (st : ConnState) (w : Nat) : ConnState :=
  { st with waiters := st.waiters ++ [w] }

/-- Enqueue one waiter per issued call, in call order. -/
def enqueueAll (st : ConnState) (ws : List Nat) : ConnState :=
  ws.foldl enqueueWaiter st

/-- Modelled from the spec: socket EOF or a `ProtocolError` closes the
connection and fails every pending waiter with the error; the failed
waiters are returned with the error each one received. -/
def handleProtocolError (st : ConnState) : ConnState × List (Nat × RError) :=
  ({ st with closed := true, waiters := [] },
   st.waiters.map (fun w => (w, .protocolError)))

/-! ## Reply parser

Modelled from the spec (section 4.1): an incremental RESP decoder over a
retained byte buffer.  Frames are delimited by CRLF; type prefixes are
`+` simple string, `-` error, `:` integer, `$` bulk (length `-1` null),
`*` array (length `-1` null, elements parsed recursively).  A partial
frame is retained and resumed on the next feed; any grammar violation
(unknown prefix, malformed length, non-numeric digits, missing CRLF
where required) yields `ProtocolError`, after which the parser is
poisoned: every later `try_next` keeps signalling the error. -/

/-- Split off the bytes up to the first CRLF pair; `none` when no
complete CRLF-terminated line is buffered yet. -/
def takeLine : Bytes → Option (Bytes × Bytes)
  | [] => none
  | 13 :: 10 :: rest => some ([], rest)
  | c :: rest => (takeLine rest).map (fun p => (c :: p.1, p.2))

/-- Value of a non-empty all-decimal-digit byte string; `none` on empty
input or any non-digit byte. -/
def digitsVal? (l : Bytes) : Option Nat :=
  if l = [] then none
  else l.foldl
    (fun acc d => acc.bind
      (fun n => if 48 ≤ d ∧ d ≤ 57 then some (n * 10 + (d - 48)) else none))
    (some 0)

/-- Signed decimal value of a length/integer line; `none` when
malformed. -/
def lineInt? : Bytes → Option Int
  | 45 :: rest => (digitsVal? rest).map (fun n => -(n : Int))
  | l => (digitsVal? l).map (fun n => (n : Int))

/-- Outcome of one decode attempt: a grammar violation, an incomplete
frame awaiting more bytes, or a value with the unconsumed remainder. -/
inductive ParseOut
  | perr
  | more
  | val (v : RESP) (rest : Bytes)

mutual

/-- Modelled from the spec: decode one RESP frame from the front of the
buffer.  The fuel argument only bounds recursion depth; callers pass at
least the buffer length plus one, which every frame shape respects since
each nested element consumes at least one byte. -/
def parseResp : Nat → Bytes → ParseOut
  | 0, _ => .more
  | _ + 1, [] => .more
  | fuel + 1, c :: rest =>
    if c = 43 then
      match takeLine rest with
      | none => .more
      | some (l, r) => .val (.simple l) r
    else if c = 45 then
      match takeLine rest with
      | none => .more
      | some (l, r) => .val (.err l) r
    else if c = 58 then
      match takeLine rest with
      | none => .more
      | some (l, r) =>
        match lineInt? l with
        | none => .perr
        | some n => .val (.int n) r
    else if c = 36 then
      match takeLine rest with
      | none => .more
      | some (l, r) =>
        match lineInt? l with
        | none => .perr
        | some n =>
          if n = -1 then .val (.bulk none) r
          else if n < 0 then .perr
          else if r.length < n.toNat + 2 then .more
          else
            match r.drop n.toNat with
            | 13 :: 10 :: rest2 => .val (.bulk (some (r.take n.toNat))) rest2
            | _ => .perr
    else if c = 42 then
      match takeLine rest with
      | none => .more
      | some (l, r) =>
        match lineInt? l with
        | none => .perr
        | some n =>
          if n = -1 then .val (.array none) r
          else if n < 0 then .perr
          else parseElems fuel n.toNat [] r
    else .perr

/-- Decode `k` further array elements, accumulating them in reverse. -/
def parseElems : Nat → Nat → List RESP → Bytes → ParseOut
  | _, 0, acc, r => .val (.array (some acc.reverse)) r
  | 0, _ + 1, _, _ => .more
  | fuel + 1, k + 1, acc, r =>
    match parseResp fuel r with
    | .val v rest => parseElems fuel k (v :: acc) rest
    | o => o

end

/-- Modelled from the spec: the incremental parser state — the retained
byte buffer plus the poisoned flag set after the first grammar
violation. -/
structure ParserState where
  buf : Bytes
  poisoned : Bool
deriving DecidableEq

/-- A fresh parser with an empty buffer. -/
def newParser : ParserState := { buf := [], poisoned := false }

/-- Modelled from the spec: `feed(bytes)` appends a chunk to the
retained buffer. -/
def feed_data (p : ParserState) (data : Bytes) : ParserState :=
  { p with buf := p.buf ++ data }

/-- Modelled from the spec: `try_next()` — `none` when no complete frame
is buffered; `some (.ok v)` hands out the next decoded value and
consumes it from the buffer; `some (.error ())` signals a
`ProtocolError`, and a poisoned parser keeps signalling it. -/
def tryNext (p : ParserState) : ParserState × Option (Except Unit RESP) :=
  if p.poisoned then (p, some (.error ()))
  else
    match parseResp (p.buf.length + 1) p.buf with
    | .perr => ({ p with poisoned := true }, some (.error ()))
    | .more => (p, none)
    | .val v rest => ({ p with buf := rest }, some (.ok v))

/-- Iterated `tryNext`, keeping only the parser state. -/
def tryNextIter (p : ParserState) : Nat → ParserState
  | 0 => p
  | k + 1 => (tryNext (tryNextIter p k)).1

/-! # Theorems -/

theorem afterFirst_skip {b : Nat} {pre rest : Bytes} (hp : b ∉ pre) :
    afterFirst b (pre ++ b :: rest) = some rest := by
  induction pre with
  | nil => simp [afterFirst]
  | cons c cs ih =>
    simp only [List.mem_cons, not_or] at hp
    simp [afterFirst, hp.1, ih hp.2, Ne.symm hp.1]

theorem upTo_take {b : Nat} {tag rest : Bytes} (ht : b ∉ tag) :
    upTo b (tag ++ b :: rest) = some tag := by
  induction tag with
  | nil => simp [upTo]
  | cons c cs ih =>
    simp only [List.mem_cons, not_or] at ht
    simp [upTo, Ne.symm ht.1, ih ht.2]

theorem hashtagOf_tag {pre tag suf : Bytes}
    (hp : obrace ∉ pre) (ht : cbrace ∉ tag) (hne : tag ≠ []) :
    hashtagOf (pre ++ [obrace] ++ tag ++ [cbrace] ++ suf) = tag := by
  have h1 : afterFirst obrace (pre ++ obrace :: (tag ++ cbrace :: suf))
      = some (tag ++ cbrace :: suf) :=
    @afterFirst_skip obrace pre (tag ++ cbrace :: suf) hp
  have h2 : upTo cbrace (tag ++ cbrace :: suf) = some tag := upTo_take ht
  simp only [hashtagOf, List.append_assoc, List.cons_append, List.singleton_append,
    List.nil_append, h1, h2]
  simp [hne]

theorem afterFirst_eq_none {b : Nat} {l : Bytes} (h : b ∉ l) :
    afterFirst b l = none := by
  induction l with
  | nil => rfl
  | cons c cs ih =>
    simp only [List.mem_cons, not_or] at h
    simp [afterFirst, Ne.symm h.1, ih h.2]

theorem hashtagOf_no_brace {k : Bytes} (h : obrace ∉ k) : hashtagOf k = k := by
  simp [hashtagOf, afterFirst_eq_none h]

theorem pubsubStep_invariant (kind : PSKind) (st : ConnState) (name : Bytes) :
    pubsubInvariant (pubsubStep kind st name).1 := by
  cases kind <;> simp [pubsubStep, pubsubInvariant]

theorem runPubsub_invariant (kind : PSKind) :
    ∀ (ns : List Bytes) (st : ConnState), pubsubInvariant st →
      pubsubInvariant (runPubsub kind st ns).1 := by
  intro ns
  induction ns with
  | nil => intro st h; exact h
  | cons n ns ih =>
    intro st _
    exact ih (pubsubStep kind st n).1 (pubsubStep_invariant kind st n)

theorem execute_pubsub_invariant (st : ConnState) (cmd : PyObj)
    (chs : List PyObj) (h : pubsubInvariant st) :
    pubsubInvariant (execute_pubsub st cmd chs).1 := by
  unfold execute_pubsub
  split
  · exact h
  · split
    · exact h
    · split
      · exact h
      · split
        · exact h
        · simpa [pubsubExec] using runPubsub_invariant _ _ st h

theorem execute_invariant (serve : String → List Bytes → RESP) (st : ConnState)
    (cmd : PyObj) (args : List PyObj) (h : pubsubInvariant st) :
    pubsubInvariant (execute serve st cmd args).1 := by
  unfold execute
  split
  · exact h
  · split
    · exact h
    · split
      · exact h
      · split
        · simpa [pubsubExec] using runPubsub_invariant _ _ st h
        · split
          · exact h
          · split
            · exact h
            · exact h

theorem applyOp_invariant (serve : String → List Bytes → RESP) (st : ConnState)
    (op : Op) (h : pubsubInvariant st) :
    pubsubInvariant (applyOp serve st op) := by
  cases op with
  | subscribe chs => exact execute_pubsub_invariant st _ chs h
  | unsubscribe chs => exact execute_pubsub_invariant st _ chs h
  | psubscribe chs => exact execute_pubsub_invariant st _ chs h
  | punsubscribe chs => exact execute_pubsub_invariant st _ chs h
  | run cmd args => exact execute_invariant serve st cmd args h
  | shutdown => exact h

/-- C2: for every Connection, after every completed operation
(subscribe, unsubscribe, psubscribe, punsubscribe, execute, close — any
sequence of them from a fresh connection), the counter `in_pubsub`
equals the number of entries in `pubsub_channels` plus the number of
entries in `pubsub_patterns`. -/
theorem in_pubsub_counts_subscriptions
    (serve : String → List Bytes → RESP) (ops : List Op) :
    pubsubInvariant (runOps serve ops) := by
  suffices h : ∀ st : ConnState, pubsubInvariant st →
      pubsubInvariant (ops.foldl (applyOp serve) st) by
    exact h initConn (by decide)
  induction ops with
  | nil => intro st h; exact h
  | cons op ops ih =>
    intro st h
    exact ih (applyOp serve st op) (applyOp_invariant serve st op h)

set_option maxRecDepth 10000 in
/-- C7: for every key of the form `pre ++ "{" ++ tag ++ "}" ++ suf` with
`tag` non-empty, the `{` the first in the key and the `}` the next after
it, the key-slot function hashes only `tag`, so the slot equals that of
`"{" ++ tag ++ "}"`; keys with no hash tag hash whole; the hash is
CRC16/XMODEM (check value 0x31C3 on "123456789") mod 16384; the example
keys `{evalkey}:1` and `{evalkey}:2` land in the same slot. -/
theorem keySlot_hashtag (pre tag suf : Bytes)
    (hp : obrace ∉ pre) (ht : cbrace ∉ tag) (hne : tag ≠ []) :
    keySlot (pre ++ [obrace] ++ tag ++ [cbrace] ++ suf)
        = keySlot ([obrace] ++ tag ++ [cbrace])
    ∧ (∀ k : Bytes, obrace ∉ k → keySlot k = crc16 k % 16384)
    ∧ crc16 (strBytes "123456789") = 12739
    ∧ keySlot (strBytes "{evalkey}:1") = keySlot (strBytes "{evalkey}:2") := by
  refine ⟨?_, ?_, by decide, by decide⟩
  · have h1 := @hashtagOf_tag pre tag suf hp ht hne
    have h2 := @hashtagOf_tag [] tag [] (by simp) ht hne
    simp only [List.nil_append, List.append_nil] at h2
    unfold keySlot
    rw [h1, h2]
  · intro k hk
    unfold keySlot
    rw [hashtagOf_no_brace hk]

set_option maxRecDepth 10000 in
theorem keySlot_hashtag_witness :
    (obrace ∉ ([] : Bytes)) ∧ (cbrace ∉ strBytes "evalkey")
    ∧ strBytes "evalkey" ≠ []
    ∧ keySlot ([] ++ [obrace] ++ strBytes "evalkey" ++ [cbrace] ++ strBytes ":1")
        = keySlot ([obrace] ++ strBytes "evalkey" ++ [cbrace]) :=
  ⟨by decide, by decide, by decide,
   (keySlot_hashtag [] (strBytes "evalkey") (strBytes ":1")
     (by decide) (by decide) (by decide)).1⟩

theorem enqueueAll_waiters :
    ∀ (ws : List Nat) (st : ConnState),
      enqueueAll st ws = { st with waiters := st.waiters ++ ws } := by
  intro ws
  induction ws with
  | nil => intro st; simp [enqueueAll]
  | cons w ws ih =>
    intro st
    have := ih { st with waiters := st.waiters ++ [w] }
    simp only [enqueueAll, List.foldl_cons] at *
    rw [show enqueueWaiter st w = { st with waiters := st.waiters ++ [w] } from rfl]
    rw [this]
    simp

theorem readerLoop_fifo :
    ∀ (rs : List RESP) (st : ConnState),
      st.in_pubsub = 0 → rs.length ≤ st.waiters.length →
      readerLoop st rs
        = ({ st with waiters := st.waiters.drop rs.length },
           (st.waiters.zip rs).map (fun p => RdEvent.resolved p.1 p.2)) := by
  intro rs
  induction rs with
  | nil => intro st _ _; simp [readerLoop]
  | cons r rs ih =>
    intro st h0 hlen
    cases hw : st.waiters with
    | nil => rw [hw] at hlen; simp at hlen
    | cons w ws =>
      have hstep : readerStep st r = ({ st with waiters := ws }, .resolved w r) := by
        unfold readerStep
        rw [if_pos (Or.inl h0), hw]
      have hlen' : rs.length ≤ ws.length := by
        rw [hw] at hlen; simpa using hlen
      have hrec := ih { st with waiters := ws } h0 hlen'
      simp [readerLoop, hstep, hrec, hw]

/-- C1: for every sequence of waiters enqueued (in call order) on a
single non-pubsub Connection and every reply stream of at most that
length, the reader resolves waiters strictly in FIFO order of enqueue:
the i-th reply goes to the i-th enqueued waiter (the pipelining
invariant), and the still-pending waiters are exactly the un-replied
tail. -/
theorem pipelining_fifo (ws : List Nat) (rs : List RESP)
    (h : rs.length ≤ ws.length) :
    (readerLoop (enqueueAll initConn ws) rs).2
        = (ws.zip rs).map (fun p => RdEvent.resolved p.1 p.2)
    ∧ (readerLoop (enqueueAll initConn ws) rs).1.waiters = ws.drop rs.length := by
  have he : enqueueAll initConn ws = { initConn with waiters := ws } := by
    simpa [initConn] using enqueueAll_waiters ws initConn
  have hfifo := readerLoop_fifo rs { initConn with waiters := ws } rfl (by simpa using h)
  rw [he, hfifo]
  constructor <;> rfl

theorem pipelining_fifo_witness :
    (([RESP.int 1, RESP.simple (strBytes "PONG")] : List RESP).length
        ≤ ([0, 1, 2] : List Nat).length)
    ∧ ((readerLoop (enqueueAll initConn [0, 1, 2])
          [RESP.int 1, RESP.simple (strBytes "PONG")]).2
        = (([0, 1, 2] : List Nat).zip [RESP.int 1, RESP.simple (strBytes "PONG")]).map
            (fun p => RdEvent.resolved p.1 p.2)
       ∧ (readerLoop (enqueueAll initConn [0, 1, 2])
            [RESP.int 1, RESP.simple (strBytes "PONG")]).1.waiters
          = ([0, 1, 2] : List Nat).drop
              ([RESP.int 1, RESP.simple (strBytes "PONG")] : List RESP).length) :=
  ⟨by decide, pipelining_fifo [0, 1, 2] [RESP.int 1, RESP.simple (strBytes "PONG")] (by decide)⟩

theorem tryNext_of_poisoned (p : ParserState) (h : p.poisoned = true) :
    tryNext p = (p, some (Except.error ())) := by
  simp [tryNext, h]

theorem tryNext_error_poisons (p : ParserState)
    (h : (tryNext p).2 = some (Except.error ())) :
    (tryNext p).1.poisoned = true := by
  unfold tryNext at *
  by_cases hp : p.poisoned
  · simp [hp]
  · simp only [hp, if_neg, Bool.false_eq_true, not_false_iff, if_false] at h ⊢
    cases hparse : parseResp (p.buf.length + 1) p.buf <;> simp [hparse] at h ⊢

theorem tryNextIter_poisoned (p : ParserState) (h : p.poisoned = true) :
    ∀ k : Nat, (tryNextIter p k).poisoned = true := by
  intro k
  induction k with
  | zero => exact h
  | succ k ih =>
    show (tryNext (tryNextIter p k)).1.poisoned = true
    rw [tryNext_of_poisoned _ ih]
    exact ih

set_option maxRecDepth 10000 in
/-- C3: the spec's bad chunk `b"not good redis protocol response"` makes
`try_next` yield `ProtocolError`; more generally any unknown type prefix
is a grammar violation; once an error is reported the parser stays
poisoned, every later `try_next` still signalling the error; and the
resulting connection teardown closes the connection, fails every pending
waiter (e.g. an outstanding `PING`) with `ProtocolError`, and leaves the
waiter queue empty. -/
theorem protocol_error_poisons :
    (tryNext (feed_data newParser (strBytes "not good redis protocol response"))).2
        = some (Except.error ())
    ∧ (∀ (fuel c : Nat) (rest : Bytes),
        c ≠ 43 → c ≠ 45 → c ≠ 58 → c ≠ 36 → c ≠ 42 →
        parseResp (fuel + 1) (c :: rest) = .perr)
    ∧ (∀ (p : ParserState) (k : Nat), (tryNext p).2 = some (Except.error ()) →
        (tryNext (tryNextIter (tryNext p).1 k)).2 = some (Except.error ()))
    ∧ (∀ st : ConnState,
        (handleProtocolError st).1.waiters = []
        ∧ (handleProtocolError st).1.closed = true
        ∧ (handleProtocolError st).2
            = st.waiters.map (fun w => (w, RError.protocolError))) := by
  refine ⟨rfl, ?_, ?_, ?_⟩
  · intro fuel c rest h43 h45 h58 h36 h42
    simp [parseResp, h43, h45, h58, h36, h42]
  · intro p k h
    have hpois := tryNextIter_poisoned (tryNext p).1 (tryNext_error_poisons p h) k
    rw [tryNext_of_poisoned _ hpois]
  · intro st
    exact ⟨rfl, rfl, rfl⟩

set_option maxRecDepth 10000 in
theorem protocol_error_poisons_witness :
    (tryNext (feed_data newParser (strBytes "not good redis protocol response"))).2
        = some (Except.error ())
    ∧ (tryNext (tryNextIter
          (tryNext (feed_data newParser
            (strBytes "not good redis protocol response"))).1 3)).2
        = some (Except.error ())
    ∧ (handleProtocolError { initConn with waiters := [7] }).1.waiters = [] :=
  ⟨protocol_error_poisons.1,
   protocol_error_poisons.2.2.1
     (feed_data newParser (strBytes "not good redis protocol response")) 3
     protocol_error_poisons.1,
   (protocol_error_poisons.2.2.2 { initConn with waiters := [7] }).1⟩

/-- C4: after `close()` the connection is closed with an empty waiter
queue; every subsequent `execute` or `execute_pubsub` on a closed
connection fails with `ConnectionClosedError` and changes nothing;
`close` is idempotent; and a server-side `QUIT` closes the connection,
so the next `execute` fails with `ConnectionClosedError` too. -/
theorem close_rejects_and_idempotent (serve : String → List Bytes → RESP)
    (st : ConnState) (cmd : PyObj) (args chans : List PyObj)
    (h : st.closed = false) :
    ((close st).1.closed = true ∧ (close st).1.waiters = [])
    ∧ (∀ st2 : ConnState, st2.closed = true →
        execute serve st2 cmd args = (st2, .fail .connectionClosed)
        ∧ execute_pubsub st2 cmd chans = (st2, .fail .connectionClosed))
    ∧ close (close st).1 = ((close st).1, [])
    ∧ execute serve st (.pstr "QUIT") []
        = ({ st with closed := true, waiters := [] }, .ok (serve "QUIT" []))
    ∧ (execute serve (execute serve st (.pstr "QUIT") []).1 cmd args).2
        = .fail .connectionClosed := by
  have hquit : execute serve st (.pstr "QUIT") []
      = ({ st with closed := true, waiters := [] }, .ok (serve "QUIT" [])) := by
    have hname : cmdName? (.pstr "QUIT") = some "QUIT" := by decide
    have hargs : argsBytes? [] = some [] := rfl
    have hkind : psKind? "QUIT" = none := rfl
    have hallow : ¬(st.in_pubsub ≠ 0 ∧ "QUIT" ∉ allowedInPubsub) := by
      intro hcon
      exact hcon.2 (by decide)
    simp [execute, h, hname, hargs, hkind, hallow]
  refine ⟨⟨rfl, rfl⟩, ?_, rfl, hquit, ?_⟩
  · intro st2 h2
    constructor
    · simp [execute, h2]
    · simp [execute_pubsub, h2]
  · rw [hquit]
    simp [execute]

theorem close_rejects_witness :
    initConn.closed = false
    ∧ ((close initConn).1.closed = true ∧ (close initConn).1.waiters = [])
    ∧ execute (fun _ _ => RESP.simple (strBytes "PONG")) initConn (.pstr "QUIT") []
        = ({ initConn with closed := true, waiters := [] },
           .ok ((fun (_ : String) (_ : List Bytes) => RESP.simple (strBytes "PONG")) "QUIT" [])) :=
  ⟨rfl,
   (close_rejects_and_idempotent (fun _ _ => RESP.simple (strBytes "PONG"))
     initConn (.pstr "PING") [] [.pstr "chan:1"] rfl).1,
   (close_rejects_and_idempotent (fun _ _ => RESP.simple (strBytes "PONG"))
     initConn (.pstr "PING") [] [.pstr "chan:1"] rfl).2.2.2.1⟩

theorem psKind_none_of_not_allowed (name : String)
    (h : name ∉ allowedInPubsub) : psKind? name = none := by
  unfold allowedInPubsub at h
  simp only [List.mem_cons, List.mem_singleton, not_or] at h
  simp [psKind?, h.1, h.2.1, h.2.2.1, h.2.2.2.1]

/-- C5: on a Connection with `in_pubsub > 0`, `execute` with any
(well-typed) command outside the allowed set (pub/sub family plus `PING`
and `QUIT`) — e.g. `SELECT` or `GET` — fails with
`RedisError("Connection in SUBSCRIBE mode")`, and the command is not
sent: the state is unchanged. -/
theorem pubsub_mode_rejects (serve : String → List Bytes → RESP)
    (st : ConnState) (cmd : PyObj) (args : List PyObj)
    (name : String) (bargs : List Bytes)
    (hopen : st.closed = false) (hps : st.in_pubsub ≠ 0)
    (hname : cmdName? cmd = some name) (hargs : argsBytes? args = some bargs)
    (hnot : name ∉ allowedInPubsub) :
    execute serve st cmd args
      = (st, .fail (.redisError "Connection in SUBSCRIBE mode")) := by
  have hkind := psKind_none_of_not_allowed name hnot
  simp [execute, hopen, hname, hargs, hkind, hps, hnot]

/-- A connection that has completed `SUBSCRIBE chan:1` and is in pub/sub
mode. -/
def subModeConn : ConnState :=
  { initConn with in_pubsub := 1, pubsub_channels := [strBytes "chan:1"] }

theorem pubsub_mode_rejects_witness :
    subModeConn.closed = false ∧ subModeConn.in_pubsub ≠ 0
    ∧ cmdName? (.pstr "select") = some "SELECT"
    ∧ argsBytes? [.pint 1] = some [strBytes "1"]
    ∧ "SELECT" ∉ allowedInPubsub
    ∧ execute (fun _ _ => RESP.simple (strBytes "OK")) subModeConn
        (.pstr "select") [.pint 1]
        = (subModeConn, .fail (.redisError "Connection in SUBSCRIBE mode")) :=
  ⟨rfl, by decide, by decide, by decide, by decide,
   pubsub_mode_rejects (fun _ _ => RESP.simple (strBytes "OK")) subModeConn
     (.pstr "select") [.pint 1] "SELECT" [strBytes "1"]
     rfl (by decide) (by decide) (by decide) (by decide)⟩

/-- C6: every invalid `execute` call — command name `None` (or any
non-text value), an argument that is `None`, or an argument that is
neither text, bytes, nor a number (e.g. a tuple) — raises a type error
synchronously before any I/O, leaving the state (in particular the
waiter queue length) exactly as before. -/
theorem invalid_input_type_error (serve : String → List Bytes → RESP)
    (st : ConnState) (cmd : PyObj) (args : List PyObj)
    (hopen : st.closed = false)
    (hbad : cmdName? cmd = none ∨ argsBytes? args = none) :
    execute serve st cmd args = (st, .fail .typeError)
    ∧ (execute serve st cmd args).1.waiters = st.waiters := by
  have hmain : execute serve st cmd args = (st, .fail .typeError) := by
    rcases hbad with hc | ha
    · simp [execute, hopen, hc]
    · cases hc : cmdName? cmd with
      | none => simp [execute, hopen, hc]
      | some name => simp [execute, hopen, hc, ha]
  exact ⟨hmain, by rw [hmain]⟩

theorem invalid_input_type_error_witness :
    initConn.closed = false
    ∧ (cmdName? .pnone = none ∨ argsBytes? ([] : List PyObj) = none)
    ∧ (cmdName? (.pstr "GET") = some "GET" ∧ argsBytes? [.ptuple] = none)
    ∧ execute (fun _ _ => RESP.simple (strBytes "OK")) initConn .pnone []
        = (initConn, .fail .typeError)
    ∧ execute (fun _ _ => RESP.simple (strBytes "OK")) initConn
        (.pstr "GET") [.ptuple] = (initConn, .fail .typeError) :=
  ⟨rfl, Or.inl rfl, ⟨by decide, rfl⟩,
   (invalid_input_type_error (fun _ _ => RESP.simple (strBytes "OK")) initConn
     .pnone [] rfl (Or.inl rfl)).1,
   (invalid_input_type_error (fun _ _ => RESP.simple (strBytes "OK")) initConn
     (.pstr "GET") [.ptuple] rfl (Or.inr rfl)).1⟩

/-- C8: connection creation and `select` validate the `db` argument
before any I/O — negative → `ValueError`, non-integer (float, string,
bytes, None) → type error, out-of-range integer → `ReplyError` from the
server; every successful `select n` returns `True` and sets the
connection's `db` attribute to `n`. -/
theorem select_validates_db (numDbs : Nat) (st : ConnState)
    (hopen : st.closed = false) :
    (∀ n : Int, n < 0 → select numDbs st (.pint n) = (st, .error .valueError))
    ∧ (∀ s : String, select numDbs st (.pstr s) = (st, .error .typeError))
    ∧ (∀ b : Bytes, select numDbs st (.pbytes b) = (st, .error .typeError))
    ∧ select numDbs st .pfloat = (st, .error .typeError)
    ∧ select numDbs st .pnone = (st, .error .typeError)
    ∧ (∀ n : Int, 0 ≤ n → numDbs ≤ n.toNat →
        select numDbs st (.pint n)
          = (st, .error (.replyError (strBytes "ERR DB index is out of range"))))
    ∧ (∀ n : Int, 0 ≤ n → n.toNat < numDbs →
        select numDbs st (.pint n) = ({ st with db := n.toNat }, .ok true))
    ∧ create_connection numDbs (.pint (-1)) = .error .valueError
    ∧ create_connection numDbs .pfloat = .error .typeError := by
  have hneg : ((-1 : Int) < 0) := by norm_num
  refine ⟨?_, ?_, ?_, ?_, ?_, ?_, ?_, ?_, ?_⟩
  · intro n hn; simp [select, hopen, hn]
  · intro s; simp [select, hopen]
  · intro b; simp [select, hopen]
  · simp [select, hopen]
  · simp [select, hopen]
  · intro n hn hge; simp [select, hopen, not_lt.mpr hn, hge]
  · intro n hn hlt; simp [select, hopen, not_lt.mpr hn, not_le.mpr hlt]
  · simp [create_connection, select, initConn, hneg]
  · simp [create_connection, select, initConn]

theorem select_validates_db_witness :
    initConn.closed = false
    ∧ select 16 initConn (.pint (-1)) = (initConn, .error .valueError)
    ∧ select 16 initConn (.pint 100000)
        = (initConn, .error (.replyError (strBytes "ERR DB index is out of range")))
    ∧ select 16 initConn (.pint 2) = ({ initConn with db := (2 : Int).toNat }, .ok true) :=
  ⟨rfl,
   (select_validates_db 16 initConn rfl).1 (-1) (by norm_num),
   (select_validates_db 16 initConn rfl).2.2.2.2.2.1 100000 (by norm_num) (by norm_num),
   (select_validates_db 16 initConn rfl).2.2.2.2.2.2.1 2 (by norm_num) (by norm_num)⟩

/-- C9: unsubscribing a name that is not currently subscribed returns a
normal `[[kind, name, current_count]]` reply in which the subscription
count is unchanged (it does not decrease) and `in_pubsub` is unchanged
(the state is untouched); only unsubscribing a previously active name
decrements the count. -/
theorem unsubscribe_inactive_count (st : ConnState) (name : Bytes)
    (hopen : st.closed = false) (hinv : pubsubInvariant st) :
    (name ∉ st.pubsub_channels →
      execute_pubsub st (.pstr "unsubscribe") [.pbytes name]
        = (st, .ok (.array (some [entryOf .unsub name st.in_pubsub]))))
    ∧ (name ∈ st.pubsub_channels →
      (execute_pubsub st (.pstr "unsubscribe") [.pbytes name]).1.in_pubsub
          = st.in_pubsub - 1
      ∧ (execute_pubsub st (.pstr "unsubscribe") [.pbytes name]).2
          = .ok (.array (some [entryOf .unsub name (st.in_pubsub - 1)])))
    ∧ (name ∉ st.pubsub_patterns →
      execute_pubsub st (.pstr "punsubscribe") [.pbytes name]
        = (st, .ok (.array (some [entryOf .punsub name st.in_pubsub]))))
    ∧ (name ∈ st.pubsub_patterns →
      (execute_pubsub st (.pstr "punsubscribe") [.pbytes name]).1.in_pubsub
          = st.in_pubsub - 1) := by
  have hname : cmdName? (.pstr "unsubscribe") = some "UNSUBSCRIBE" := by decide
  have hkind : psKind? "UNSUBSCRIBE" = some .unsub := by decide
  have hargs : argsBytes? [.pbytes name] = some [name] := rfl
  have hred : execute_pubsub st (.pstr "unsubscribe") [.pbytes name]
      = ((pubsubStep .unsub st name).1,
         .ok (.array (some [(pubsubStep .unsub st name).2]))) := by
    simp [execute_pubsub, hopen, hname, hkind, hargs, pubsubExec, runPubsub]
  have hnamep : cmdName? (.pstr "punsubscribe") = some "PUNSUBSCRIBE" := by decide
  have hkindp : psKind? "PUNSUBSCRIBE" = some .punsub := by decide
  have hredp : execute_pubsub st (.pstr "punsubscribe") [.pbytes name]
      = ((pubsubStep .punsub st name).1,
         .ok (.array (some [(pubsubStep .punsub st name).2]))) := by
    simp [execute_pubsub, hopen, hnamep, hkindp, hargs, pubsubExec, runPubsub]
  refine ⟨?_, ?_, ?_, ?_⟩
  · intro hmem
    have herase : st.pubsub_channels.erase name = st.pubsub_channels :=
      List.erase_of_not_mem hmem
    have hstep : pubsubStep .unsub st name = (st, entryOf .unsub name st.in_pubsub) := by
      simp only [pubsubStep]
      rw [herase, ← hinv]
    rw [hred, hstep]
  · intro hmem
    have hpos : 0 < st.pubsub_channels.length :=
      List.length_pos.mpr (List.ne_nil_of_mem hmem)
    have hlen : (st.pubsub_channels.erase name).length
        = st.pubsub_channels.length - 1 := List.length_erase_of_mem hmem
    have hinv2 : st.in_pubsub
        = st.pubsub_channels.length + st.pubsub_patterns.length := hinv
    have harith : (st.pubsub_channels.erase name).length
        + st.pubsub_patterns.length = st.in_pubsub - 1 := by
      rw [hlen]; omega
    rw [hred]
    constructor
    · simpa [pubsubStep] using harith
    · simp only [pubsubStep]
      rw [harith]
  · intro hmem
    have herase : st.pubsub_patterns.erase name = st.pubsub_patterns :=
      List.erase_of_not_mem hmem
    have hstep : pubsubStep .punsub st name
        = (st, entryOf .punsub name st.in_pubsub) := by
      simp only [pubsubStep]
      rw [herase, ← hinv]
    rw [hredp, hstep]
  · intro hmem
    have hlen : (st.pubsub_patterns.erase name).length
        = st.pubsub_patterns.length - 1 := List.length_erase_of_mem hmem
    have hpos : 0 < st.pubsub_patterns.length :=
      List.length_pos.mpr (List.ne_nil_of_mem hmem)
    have hinv2 : st.in_pubsub
        = st.pubsub_channels.length + st.pubsub_patterns.length := hinv
    have harith : st.pubsub_channels.length
        + (st.pubsub_patterns.erase name).length = st.in_pubsub - 1 := by
      rw [hlen]; omega
    rw [hredp]
    simpa [pubsubStep] using harith

theorem unsubscribe_inactive_count_witness :
    subModeConn.closed = false ∧ pubsubInvariant subModeConn
    ∧ strBytes "non-existent" ∉ subModeConn.pubsub_channels
    ∧ execute_pubsub subModeConn (.pstr "unsubscribe")
        [.pbytes (strBytes "non-existent")]
      = (subModeConn,
         .ok (.array (some [entryOf .unsub (strBytes "non-existent")
                              subModeConn.in_pubsub]))) :=
  ⟨rfl, by decide, by decide,
   (unsubscribe_inactive_count subModeConn (strBytes "non-existent")
     rfl (by decide)).1 (by decide)⟩

theorem runPubsub_length (kind : PSKind) :
    ∀ (ns : List Bytes) (st : ConnState),
      ((runPubsub kind st ns).2).length = ns.length := by
  intro ns
  induction ns with
  | nil => intro st; rfl
  | cons n ns ih => intro st; simp [runPubsub, ih]

/-- C10: calling the general `execute` method with a pub/sub-family
command name behaves exactly like `execute_pubsub` — in particular it is
accepted even when `in_pubsub == 0` (no pub/sub-mode hypothesis below) —
and on an open connection with valid channel arguments it returns the
pub/sub reply shape with one `[kind, name, count]` sub-array per channel
touched, updating the state exactly as `execute_pubsub` would. -/
theorem execute_accepts_pubsub_commands (serve : String → List Bytes → RESP)
    (st : ConnState) (cmd : PyObj) (chans : List PyObj)
    (name : String) (kind : PSKind)
    (hname : cmdName? cmd = some name) (hkind : psKind? name = some kind) :
    execute serve st cmd chans = execute_pubsub st cmd chans
    ∧ (∀ bargs : List Bytes, st.closed = false → argsBytes? chans = some bargs →
        execute serve st cmd chans
          = ((runPubsub kind st bargs).1,
             .ok (.array (some (runPubsub kind st bargs).2)))
        ∧ ((runPubsub kind st bargs).2).length = bargs.length) := by
  constructor
  · by_cases hcl : st.closed
    · simp [execute, execute_pubsub, hcl]
    · cases hargs : argsBytes? chans with
      | none => simp [execute, execute_pubsub, hcl, hname, hkind, hargs]
      | some bargs => simp [execute, execute_pubsub, hcl, hname, hkind, hargs]
  · intro bargs hopen hargs
    constructor
    · simp [execute, hopen, hname, hkind, hargs, pubsubExec]
    · exact runPubsub_length kind bargs st

theorem execute_accepts_pubsub_commands_witness :
    cmdName? (.pstr "subscribe") = some "SUBSCRIBE"
    ∧ psKind? "SUBSCRIBE" = some PSKind.sub
    ∧ execute (fun _ _ => RESP.simple (strBytes "OK")) initConn
        (.pstr "subscribe") [.pstr "chan:1"]
      = execute_pubsub initConn (.pstr "subscribe") [.pstr "chan:1"] :=
  ⟨by decide, by decide,
   (execute_accepts_pubsub_commands (fun _ _ => RESP.simple (strBytes "OK"))
     initConn (.pstr "subscribe") [.pstr "chan:1"] "SUBSCRIBE" .sub
     (by decide) (by decide)).1⟩
